import Mathlib

/-!
Shallow embedding of the offline-first content synchronization engine of the
ERP Field Map client: the manifest data model, the IndexedDB-backed persistent
store, the change-detection diff, the layer sync loop, the streamed basemap
download, the full-sync orchestration, and the sync status store.

Modelling conventions:
* Asynchronous effectful functions are embedded as total Lean functions that
  take the network environment and database state explicitly and return the
  updated state together with a trace of observable events (network fetches,
  store writes, progress callbacks).  A JavaScript function that can throw is
  embedded with an `Option` result (`none` = an exception escaped).
* The IndexedDB object stores are keyed by record id; they are modelled as
  lists with keyed get/put semantics.  Because the real store is keyed, a
  list can never hold two records with the same id; theorems that depend on
  this carry the corresponding `Pairwise` hypothesis.
* Opaque payloads (decoded GeoJSON feature collections, binary blob bytes)
  are modelled by wrapper types whose contents the sync engine never
  inspects.
-/

/-- Decoded GeoJSON feature collection.  The sync engine treats it as an
opaque payload, so its contents are abstracted to a tag. -/
structure FeatureCollection where
  tag : Nat
deriving DecidableEq, Repr

/-- Layer source format (`kml` or `geojson` in the manifest). -/
inductive LayerType where
  | kml
  | geojson
deriving DecidableEq, Repr

/-- `LayerConfig` from the content manifest. -/
structure LayerConfig where
  id : String
  type : LayerType
  name : String
  url : String
  sha256 : Option String
  defaultVisible : Bool
deriving DecidableEq, Repr

/-- `BasemapConfig` from the content manifest (its `type` field is the fixed
string `pmtiles` and is omitted). -/
structure BasemapConfig where
  id : String
  url : String
  sha256 : Option String
deriving DecidableEq, Repr

/-- `ContentManifest`: the server-authoritative content description. -/
structure ContentManifest where
  version : String
  basemap : BasemapConfig
  layers : List LayerConfig
deriving DecidableEq, Repr

/-- `StoredManifest`: the last successfully fetched manifest, persisted under
the fixed singleton key `current`. -/
structure StoredManifest where
  id : String
  version : String
  fetchedAt : String
  rawJson : ContentManifest
deriving DecidableEq, Repr

/-- `StoredLayer`: a decoded layer persisted in the `layers` object store. -/
structure StoredLayer where
  id : String
  version : String
  name : String
  geojson : FeatureCollection
  sha256 : Option String
  storedAt : String
  visible : Bool
deriving DecidableEq, Repr

/-- `StoredBasemap`: the basemap blob persisted in the `basemaps` object
store; the blob is a byte list. -/
structure StoredBasemap where
  id : String
  version : String
  blob : List Nat
  sha256 : Option String
  sizeBytes : Nat
  storedAt : String
deriving DecidableEq, Repr

/-- `StoredSettings`, restricted to the fields the sync engine writes
(`basemapDownloaded`, `lastBasemapId`); the remaining user preferences are
never read or written by the operations verified here. -/
structure StoredSettings where
  basemapDownloaded : Bool
  lastBasemapId : Option String
deriving DecidableEq, Repr

/-- JavaScript truthiness of an optional string field: `undefined` and the
empty string are falsy. -/
def isTruthy : Option String → Bool
  | none => false
  | some s => s ≠ ""

/-- Keyed put: IndexedDB `put` overwrites the record stored under the same
key, otherwise inserts the record. -/
def putByKey {α : Type} (key : α → String) (x : α) : List α → List α
  | [] => [x]
  | y :: ys => if key y = key x then x :: ys else y :: putByKey key x ys

/-- The IndexedDB database state: the object stores touched by the sync
engine. -/
structure DB where
  manifest : Option StoredManifest
  layers : List StoredLayer
  basemaps : List StoredBasemap
  settings : Option StoredSettings
deriving DecidableEq, Repr

/-- `getStoredManifest` (`db.get('manifest', 'current')`). -/
def getStoredManifest (db : DB) : Option StoredManifest :=
  db.manifest

/-- `saveManifest` (`db.put('manifest', manifest)` on the singleton key). -/
def saveManifest (db : DB) (m : StoredManifest) : DB :=
  { db with manifest := some m }

/-- `getStoredLayer` (`db.get('layers', id)`). -/
def getStoredLayer (db : DB) (id : String) : Option StoredLayer :=
  db.layers.find? (fun l => l.id = id)

/-- `getAllLayers` (`db.getAll('layers')`). -/
def getAllLayers (db : DB) : List StoredLayer :=
  db.layers

/-- `saveLayer` (`db.put('layers', layer)`). -/
def saveLayer (db : DB) (l : StoredLayer) : DB :=
  { db with layers := putByKey (fun x => x.id) l db.layers }

/-- `getStoredBasemap` (`db.get('basemaps', id)`). -/
def getStoredBasemap (db : DB) (id : String) : Option StoredBasemap :=
  db.basemaps.find? (fun b => b.id = id)

/-- `saveBasemap` (`db.put('basemaps', basemap)`). -/
def saveBasemap (db : DB) (b : StoredBasemap) : DB :=
  { db with basemaps := putByKey (fun x => x.id) b db.basemaps }

/-- `updateLayerVisibility(id, visible)`: fetch the record; if present,
mutate its `visible` field and put it back; otherwise do nothing. -/
def updateLayerVisibility (db : DB) (id : String) (visible : Bool) : DB :=
  match getStoredLayer db id with
  | none => db
  | some layer => saveLayer db { layer with visible := visible }

/-- `saveSettings({ basemapDownloaded: true, lastBasemapId: id })`: merge the
partial update onto the existing record or onto defaults. -/
def saveSettingsBasemap (db : DB) (id : String) : DB :=
  let existing := db.settings.getD ⟨false, none⟩
  let merged := { existing with basemapDownloaded := true, lastBasemapId := some id }
  { db with settings := some merged }

/-- Result record of `checkSyncNeeded`. -/
structure SyncCheck where
  needsSync : Bool
  changedLayers : List LayerConfig
  basemapChanged : Bool
deriving DecidableEq, Repr

/-- The per-layer change predicate of `checkSyncNeeded`: a manifest layer is
changed when no stored layer with its id exists, or when it declares a
(truthy) integrity hash that differs from the stored hash. -/
def layerChanged (storedLayers : List StoredLayer) (layer : LayerConfig) : Bool :=
  match storedLayers.find? (fun l => l.id = layer.id) with
  | none => true
  | some storedLayer => isTruthy layer.sha256 && storedLayer.sha256 ≠ layer.sha256

/-- `checkSyncNeeded(newManifest)`: the manifest diff.  With no stored
manifest everything is new; otherwise compare the version strings, filter the
manifest layers through the change predicate, and judge the basemap by the
same hash rule keyed by the manifest-declared basemap id. -/
def checkSyncNeeded (db : DB) (newManifest : ContentManifest) : SyncCheck :=
  match getStoredManifest db with
  | none =>
      { needsSync := true
        changedLayers := newManifest.layers
        basemapChanged := true }
  | some stored =>
      let versionChanged : Bool := stored.version ≠ newManifest.version
      let storedLayers := getAllLayers db
      let changedLayers := newManifest.layers.filter (layerChanged storedLayers)
      let storedBasemap := getStoredBasemap db newManifest.basemap.id
      let basemapChanged : Bool :=
        match storedBasemap with
        | none => true
        | some sb => isTruthy newManifest.basemap.sha256 && sb.sha256 ≠ newManifest.basemap.sha256
      { needsSync := versionChanged || changedLayers.length > 0
        changedLayers := changedLayers
        basemapChanged := basemapChanged }

/-- The network/clock environment of one sync run: the configured content
base URL (`VITE_CONTENT_BASE_URL`, empty = no content server), the outcome of
the manifest GET (`none` = timeout, non-2xx or malformed body), the outcome
of `fetchAndParseKML` per resolved URL (`none` = the fetch/decode threw), and
the current time returned by each `new Date().toISOString()` call. -/
structure Env where
  baseUrl : String
  manifestResponse : Option ContentManifest
  kmlResponse : String → Option FeatureCollection
  now : String

/-- Observable events of a sync run, in program order: network fetches,
store writes, the `syncLayers` progress callback `(completed, total)`, and
the `performFullSync` progress message callback (whose numeric progress
argument, a JavaScript float, is not modelled). -/
inductive Ev where
  | fetchManifestReq
  | fetchLayer (url : String)
  | putLayer (l : StoredLayer)
  | putManifest (m : StoredManifest)
  | layerProgress (completed total : Nat)
  | message (text : String)
deriving DecidableEq, Repr

/-- URL resolution used by `syncLayer` and `downloadBasemap`: URLs that
start with `http` pass through (the JS test `url.startsWith` against
`http`, modelled as a character-list prefix test so that it evaluates),
relative URLs are prefixed with the content base URL. -/
def resolveUrl (baseUrl url : String) : String :=
  if "http".data.isPrefixOf url.data then url else baseUrl ++ url

/-- The `StoredLayer` record that `syncLayer` builds from a successfully
fetched and decoded layer. -/
def mkStoredLayer (env : Env) (layer : LayerConfig) (geojson : FeatureCollection) :
    StoredLayer :=
  { id := layer.id
    version := env.now
    name := layer.name
    geojson := geojson
    sha256 := layer.sha256
    storedAt := env.now
    visible := layer.defaultVisible }

/-- `syncLayer(layer)`: resolve the URL, fetch and decode via
`fetchAndParseKML` (a failure throws, modelled as `none`), build the stored
record and persist it. -/
def syncLayer (env : Env) (db : DB) (layer : LayerConfig) :
    Option (StoredLayer × DB) × List Ev :=
  let url := resolveUrl env.baseUrl layer.url
  match env.kmlResponse url with
  | none => (none, [Ev.fetchLayer url])
  | some geojson =>
      let storedLayer := mkStoredLayer env layer geojson
      (some (storedLayer, saveLayer db storedLayer),
       [Ev.fetchLayer url, Ev.putLayer storedLayer])

/-- The loop body of `syncLayers`, with the running index `i` and the fixed
`total` made explicit.  Each iteration tries `syncLayer`, catches a failure
(dropping that layer), and then reports `(i + 1, total)` to the progress
callback regardless of success. -/
def syncLayersGo (env : Env) (total : Nat) :
    DB → Nat → List LayerConfig → List StoredLayer × DB × List Ev
  | db, _, [] => ([], db, [])
  | db, i, layer :: rest =>
      match syncLayer env db layer with
      | (none, evs) =>
          let r := syncLayersGo env total db (i + 1) rest
          (r.1, r.2.1, evs ++ [Ev.layerProgress (i + 1) total] ++ r.2.2)
      | (some (synced, db1), evs) =>
          let r := syncLayersGo env total db1 (i + 1) rest
          (synced :: r.1, r.2.1, evs ++ [Ev.layerProgress (i + 1) total] ++ r.2.2)

/-- `syncLayers(layers, onProgress)`: sequential loop over the layer
configs returning the successfully synced layers. -/
def syncLayers (env : Env) (db : DB) (layers : List LayerConfig) :
    List StoredLayer × DB × List Ev :=
  syncLayersGo env layers.length db 0 layers

/-- Result value of `performFullSync`. -/
structure SyncResult where
  success : Bool
  layersSynced : Nat
  error : Option String
deriving DecidableEq, Repr

/-- `fetchManifest()`: returns `null` when no base URL is configured or when
the GET fails; the event records that a network request was attempted. -/
def fetchManifest (env : Env) : Option ContentManifest × List Ev :=
  if env.baseUrl = "" then (none, [])
  else (env.manifestResponse, [Ev.fetchManifestReq])

/-- `performFullSync(onProgress)`: the orchestration.  Every path resolves
to a result value (the embedding is a total function); the manifest is saved
only after `syncLayers` has returned.  Note that the returned `layersSynced`
is `changedLayers.length`, the number of layers attempted: the list of
successes returned by `syncLayers` is discarded. -/
def performFullSync (env : Env) (db : DB) : SyncResult × DB × List Ev :=
  if env.baseUrl = "" then
    ({ success := true, layersSynced := 0, error := none }, db,
     [Ev.message "No content server configured"])
  else
    let fm := fetchManifest env
    match fm.1 with
    | none =>
        match getStoredManifest db with
        | some _ =>
            ({ success := true, layersSynced := 0, error := none }, db,
             [Ev.message "Fetching manifest..."] ++ fm.2)
        | none =>
            ({ success := false, layersSynced := 0,
               error := some "Content server unavailable" }, db,
             [Ev.message "Fetching manifest..."] ++ fm.2)
    | some manifest =>
        let check := checkSyncNeeded db manifest
        if check.needsSync = false then
          ({ success := true, layersSynced := 0, error := none }, db,
           [Ev.message "Fetching manifest..."] ++ fm.2 ++
             [Ev.message "Already up to date"])
        else
          let s := syncLayers env db check.changedLayers
          let newStored : StoredManifest :=
            { id := "current"
              version := manifest.version
              fetchedAt := env.now
              rawJson := manifest }
          ({ success := true, layersSynced := check.changedLayers.length,
             error := none },
           saveManifest s.2.1 newStored,
           [Ev.message "Fetching manifest..."] ++ fm.2 ++
             [Ev.message ("Syncing " ++ toString check.changedLayers.length ++ " layers...")] ++
             s.2.2 ++
             [Ev.putManifest newStored, Ev.message "Sync complete"])

/-- Phase of a `DownloadProgress` report. -/
inductive DlPhase where
  | fetching
  | storing
  | complete
  | error
deriving DecidableEq, Repr

/-- `DownloadProgress`: one report of the basemap download callback. -/
structure DownloadProgress where
  phase : DlPhase
  loaded : Nat
  total : Nat
  percentage : Nat
deriving DecidableEq, Repr

/-- Observable events of a `downloadBasemap` run. -/
inductive DlEv where
  | progress (p : DownloadProgress)
  | putBasemap (b : StoredBasemap)
  | putSettings (id : String)
deriving DecidableEq, Repr

/-- The HTTP response feeding one `downloadBasemap` run: `ok` status, the
optional `content-length` header, and the body chunks delivered by the
stream reader (each chunk a byte list). -/
structure BasemapResponse where
  ok : Bool
  contentLength : Option Nat
  chunks : List (List Nat)
deriving Repr

/-- `Math.round((loaded / total) * 100)` with `0` when the total is unknown.
For a nonnegative argument `Math.round x = ⌊x + 1/2⌋`, and
`⌊loaded / total * 100 + 1/2⌋ = (200 * loaded + total) / (2 * total)` in
natural floor division. -/
def jsRound100 (loaded total : Nat) : Nat :=
  if 0 < total then (200 * loaded + total) / (2 * total) else 0

/-- The fetching-phase reports emitted by the stream-reading loop of
`downloadBasemap`: after each chunk, `loaded` accumulates the chunk length
and a report is emitted. -/
def chunkReports (total : Nat) : Nat → List (List Nat) → List DownloadProgress
  | _, [] => []
  | loaded, c :: cs =>
      let loaded2 := loaded + c.length
      { phase := DlPhase.fetching
        loaded := loaded2
        total := total
        percentage := jsRound100 loaded2 total } :: chunkReports total loaded2 cs

/-- `downloadBasemap(url, id, sha256?, onProgress)`: emit the initial
fetching report, throw on a non-2xx response (`none`), read the body chunk
by chunk emitting a report after each, assemble the blob only after the
stream completes, emit the storing report, persist the blob and the settings
update, and emit the complete report.  (The resolved request URL
`resolveUrl env.baseUrl url` determines `resp` in the real system.) -/
def downloadBasemap (env : Env) (resp : BasemapResponse) (db : DB)
    (id : String) (sha256 : Option String) : Option DB × List DlEv :=
  let initial := DlEv.progress { phase := DlPhase.fetching, loaded := 0, total := 0, percentage := 0 }
  if resp.ok = false then (none, [initial])
  else
    let total := resp.contentLength.getD 0
    let loaded := (resp.chunks.map List.length).sum
    let fetchingEvs := (chunkReports total 0 resp.chunks).map DlEv.progress
    let blob := resp.chunks.flatten
    let stored : StoredBasemap :=
      { id := id
        version := env.now
        blob := blob
        sha256 := sha256
        sizeBytes := blob.length
        storedAt := env.now }
    (some (saveSettingsBasemap (saveBasemap db stored) id),
     [initial] ++ fetchingEvs ++
       [DlEv.progress { phase := DlPhase.storing, loaded := loaded, total := loaded, percentage := 100 },
        DlEv.putBasemap stored, DlEv.putSettings id,
        DlEv.progress { phase := DlPhase.complete, loaded := loaded, total := loaded, percentage := 100 }])

/-- The five states of the sync status store. -/
inductive SyncState where
  | synced
  | syncing
  | stale
  | offline
  | error
deriving DecidableEq, Repr

/-- `SyncStatus` as held by the store.  `progress` is an optional JS number;
no store action writes a numeric value into it (the actions replace the
status object, leaving it undefined), so its numeric type is immaterial. -/
structure SyncStatus where
  state : SyncState
  lastSync : Option String
  message : Option String
  progress : Option Nat
deriving DecidableEq, Repr

/-- The initial status of `useSyncStore`. -/
def initialStatus : SyncStatus :=
  { state := SyncState.offline, lastSync := none, message := none, progress := none }

/-- `startSync()`: replaces the status object wholesale. -/
def startSync (_s : SyncStatus) : SyncStatus :=
  { state := SyncState.syncing, lastSync := none, message := some "Syncing...", progress := none }

/-- `syncComplete(success, message)`: replaces the status object wholesale;
`now` is the value of `new Date().toISOString()`. -/
def syncComplete (success : Bool) (message : Option String) (now : String)
    (_s : SyncStatus) : SyncStatus :=
  { state := if success then SyncState.synced else SyncState.stale
    lastSync := if success then some now else none
    message := message
    progress := none }

/-- `syncError(message)`: replaces the status object wholesale. -/
def syncError (message : String) (_s : SyncStatus) : SyncStatus :=
  { state := SyncState.error, lastSync := none, message := some message, progress := none }

/-- `setOffline()`: spreads the previous status, overriding `state` and
`message`. -/
def setOffline (s : SyncStatus) : SyncStatus :=
  { s with state := SyncState.offline, message := some "Working offline" }

/-! ## Helper lemmas about the keyed store -/

theorem putByKey_find?_self {α : Type} (key : α → String) (x : α) (s : List α) :
    (putByKey key x s).find? (fun y => key y = key x) = some x := by
  induction s with
  | nil => simp [putByKey, List.find?]
  | cons y ys ih =>
      by_cases h : key y = key x
      · simp [putByKey, h, List.find?]
      · simp [putByKey, h, List.find?_cons_of_neg, ih]

theorem putByKey_find?_other {α : Type} (key : α → String) (x : α) (s : List α)
    (id : String) (h : id ≠ key x) :
    (putByKey key x s).find? (fun y => key y = id) = s.find? (fun y => key y = id) := by
  have hx : ¬ (key x = id) := fun hc => h hc.symm
  induction s with
  | nil => simp [putByKey, List.find?, hx]
  | cons y ys ih =>
      by_cases hy : key y = key x
      · have hyid : ¬ (key y = id) := by rw [hy]; exact hx
        simp [putByKey, hy, List.find?, hx, hyid]
      · by_cases hid : key y = id
        · simp [putByKey, hy, List.find?, hid, h]
        · simp [putByKey, hy, List.find?, hid, ih]

/-! ## C7: the sync status state machine -/

/-- A concrete status reached after a successful sync, used to exhibit the
`setOffline` behaviour on the `message` field. -/
def exStatus : SyncStatus :=
  { state := SyncState.synced
    lastSync := some "2025-01-01T00:00:00Z"
    message := some "Synced 3 layers"
    progress := none }

/-- C7 counterexample: `setOffline` does not preserve every status field
other than `state` — it overwrites `message` with `"Working offline"`.
Concretely, from a synced status carrying the message `"Synced 3 layers"`,
`setOffline` does not yield that status with only `state` changed. -/
theorem setOffline_not_purely_state_change :
    setOffline exStatus ≠ { exStatus with state := SyncState.offline } := by
  decide

/-- C7 (amended): the sync status store state machine.  The initial status
is offline with no `lastSync`; `startSync` yields `syncing` with `lastSync`
cleared; `syncComplete true` yields `synced` with `lastSync` set to the
current time; `syncComplete false` yields `stale`; `syncError` yields
`error` with `lastSync` cleared; and `setOffline` yields `offline`
preserving `lastSync` and `progress` while setting `message` to
`"Working offline"`. -/
theorem syncStore_state_machine :
    (initialStatus.state = SyncState.offline ∧ initialStatus.lastSync = none) ∧
    (∀ s, (startSync s).state = SyncState.syncing ∧ (startSync s).lastSync = none) ∧
    (∀ s m now, (syncComplete true m now s).state = SyncState.synced ∧
      (syncComplete true m now s).lastSync = some now) ∧
    (∀ s m now, (syncComplete false m now s).state = SyncState.stale) ∧
    (∀ s m, (syncError m s).state = SyncState.error ∧ (syncError m s).lastSync = none) ∧
    (∀ s, (setOffline s).state = SyncState.offline ∧
      (setOffline s).lastSync = s.lastSync ∧
      (setOffline s).progress = s.progress ∧
      (setOffline s).message = some "Working offline") :=
  ⟨⟨rfl, rfl⟩,
   fun _ => ⟨rfl, rfl⟩,
   fun _ _ _ => ⟨rfl, rfl⟩,
   fun _ _ _ => rfl,
   fun _ _ => ⟨rfl, rfl⟩,
   fun _ => ⟨rfl, rfl, rfl, rfl⟩⟩

/-! ## C9: visibility toggle is a keyed no-op / frame-preserving update -/

theorem putByKey_visible_map (id : String) (v : Bool) :
    ∀ (s : List StoredLayer) (l : StoredLayer),
      (s.map (fun x => x.id)).Nodup →
      s.find? (fun y => y.id = id) = some l →
      putByKey (fun x => x.id) { l with visible := v } s =
        s.map (fun x => if x.id = id then { x with visible := v } else x) := by
  intro s
  induction s with
  | nil => intro l _ h; simp [List.find?] at h
  | cons y ys ih =>
      intro l hnd hfind
      have hlid : l.id = id := by
        have := List.find?_some hfind
        simpa using this
      have hnd1 : y.id ∉ ys.map (fun x => x.id) ∧ (ys.map (fun x => x.id)).Nodup := by
        rw [List.map_cons, List.nodup_cons] at hnd
        exact hnd
      by_cases hy : y.id = id
      · have hyl : y = l := by
          have := hfind
          simp [List.find?, hy] at this
          exact this
        subst hyl
        have htail : ∀ z ∈ ys,
            (if z.id = id then ({ z with visible := v } : StoredLayer) else z) = z := by
          intro z hz
          have hzne : z.id ≠ id := by
            intro hcontra
            exact hnd1.1 (hy ▸ hcontra ▸ List.mem_map_of_mem (fun x => x.id) hz)
          simp [hzne]
        have hys : ys.map (fun x => if x.id = id then { x with visible := v } else x) = ys :=
          (List.map_congr_left htail).trans (List.map_id' ys)
        simp [putByKey, hy, hys]
      · have hfind2 : ys.find? (fun z => z.id = id) = some l := by
          simpa [List.find?, hy] using hfind
        have hne : ¬ (y.id = ({ l with visible := v } : StoredLayer).id) := by
          simpa [hlid] using hy
        simp only [putByKey, if_neg hne, List.map_cons, if_neg hy]
        exact congrArg _ (ih l hnd1.2 hfind2)

/-- C9: `updateLayerVisibility` with an unknown id is a no-op (no error, no
record created), and with a known id (in the keyed store the ids are unique)
it rewrites exactly the record with that id to the same record with
`visible` replaced, leaving every other field of that record, every other
layer record, and the other object stores unchanged. -/
theorem updateLayerVisibility_spec (db : DB) (id : String) (v : Bool) :
    (getStoredLayer db id = none → updateLayerVisibility db id v = db) ∧
    ((db.layers.map (fun x => x.id)).Nodup →
      ∀ l, getStoredLayer db id = some l →
      updateLayerVisibility db id v =
        { db with layers :=
            db.layers.map (fun x => if x.id = id then { x with visible := v } else x) }) := by
  constructor
  · intro h
    simp [updateLayerVisibility, h]
  · intro hnd l hl
    have := putByKey_visible_map id v db.layers l hnd hl
    simp [updateLayerVisibility, hl, saveLayer, this]

/-! ## C2: the manifest diff algorithm -/

theorem layerChanged_iff (ls : List StoredLayer) (layer : LayerConfig) :
    layerChanged ls layer = true ↔
      (ls.find? (fun l => l.id = layer.id) = none ∨
        ∃ sl, ls.find? (fun l => l.id = layer.id) = some sl ∧
          isTruthy layer.sha256 = true ∧ sl.sha256 ≠ layer.sha256) := by
  unfold layerChanged
  cases h : ls.find? (fun l => l.id = layer.id) with
  | none => simp
  | some sl => simp [Bool.and_eq_true, decide_eq_true_eq]

/-- C2: with no stored manifest the diff reports everything new; with a
stored manifest a manifest layer is in `changedLayers` exactly when no
stored layer with its id exists or the layer declares a (truthy) integrity
hash differing from the stored hash; `changedLayers` is invariant under the
manifest version; a layer whose declared hash equals the stored hash, and a
layer declaring no hash whose id is stored, are excluded; and the basemap is
judged by the same rule keyed by the manifest-declared basemap id. -/
theorem checkSyncNeeded_diff_spec (db : DB) (m : ContentManifest) :
    (getStoredManifest db = none →
      checkSyncNeeded db m =
        { needsSync := true, changedLayers := m.layers, basemapChanged := true }) ∧
    (getStoredManifest db ≠ none →
      ((∀ layer, layer ∈ (checkSyncNeeded db m).changedLayers ↔
          (layer ∈ m.layers ∧
            (getStoredLayer db layer.id = none ∨
              ∃ sl, getStoredLayer db layer.id = some sl ∧
                isTruthy layer.sha256 = true ∧ sl.sha256 ≠ layer.sha256))) ∧
        (∀ v, (checkSyncNeeded db { m with version := v }).changedLayers =
          (checkSyncNeeded db m).changedLayers) ∧
        (∀ layer sl, getStoredLayer db layer.id = some sl → sl.sha256 = layer.sha256 →
          layer ∉ (checkSyncNeeded db m).changedLayers) ∧
        (∀ layer, layer.sha256 = none → getStoredLayer db layer.id ≠ none →
          layer ∉ (checkSyncNeeded db m).changedLayers) ∧
        ((checkSyncNeeded db m).basemapChanged = true ↔
          (getStoredBasemap db m.basemap.id = none ∨
            ∃ sb, getStoredBasemap db m.basemap.id = some sb ∧
              isTruthy m.basemap.sha256 = true ∧ sb.sha256 ≠ m.basemap.sha256)))) := by
  constructor
  · intro h
    simp [checkSyncNeeded, h]
  · intro h
    obtain ⟨stored, hst⟩ := Option.ne_none_iff_exists.mp h
    refine ⟨?_, ?_, ?_, ?_, ?_⟩
    · intro layer
      simp only [checkSyncNeeded, ← hst, getAllLayers, List.mem_filter]
      rw [layerChanged_iff]
      rfl
    · intro v
      simp [checkSyncNeeded, ← hst]
    · intro layer sl hsl heq hmem
      simp only [checkSyncNeeded, ← hst, getAllLayers, List.mem_filter] at hmem
      have := hmem.2
      rw [layerChanged_iff] at this
      rcases this with hnone | ⟨sl2, hsl2, _, hne⟩
      · rw [getStoredLayer] at hsl
        rw [hsl] at hnone
        exact Option.noConfusion hnone
      · rw [getStoredLayer] at hsl
        rw [hsl] at hsl2
        cases Option.some.injEq _ _ ▸ hsl2
        exact hne heq
    · intro layer hnone hsome hmem
      simp only [checkSyncNeeded, ← hst, getAllLayers, List.mem_filter] at hmem
      have := hmem.2
      rw [layerChanged_iff] at this
      rcases this with hn | ⟨sl2, _, htr, _⟩
      · exact hsome hn
      · rw [hnone] at htr
        exact Bool.noConfusion htr
    · simp only [checkSyncNeeded, ← hst]
      cases hb : getStoredBasemap db m.basemap.id with
      | none => simp
      | some sb => simp [Bool.and_eq_true, decide_eq_true_eq]

/-! ## C10: needsSync is version-or-layers, never basemap -/

/-- C10: with a stored manifest, `needsSync` holds exactly when the stored
version differs from the manifest version or `changedLayers` is non-empty —
`basemapChanged` never contributes — and whenever `needsSync` is false,
`performFullSync` skips the sync entirely, returning success with zero
layers synced and leaving the database untouched. -/
theorem needsSync_version_or_layers (db : DB) (m : ContentManifest)
    (stored : StoredManifest) (h : getStoredManifest db = some stored) :
    ((checkSyncNeeded db m).needsSync = true ↔
      (stored.version ≠ m.version ∨ (checkSyncNeeded db m).changedLayers ≠ [])) ∧
    (∀ env, env.baseUrl ≠ "" → env.manifestResponse = some m →
      (checkSyncNeeded db m).needsSync = false →
      performFullSync env db =
        ({ success := true, layersSynced := 0, error := none }, db,
         [Ev.message "Fetching manifest...", Ev.fetchManifestReq,
          Ev.message "Already up to date"])) := by
  constructor
  · simp only [checkSyncNeeded, h, getAllLayers, gt_iff_lt]
    rw [Bool.or_eq_true, decide_eq_true_eq, decide_eq_true_eq, List.length_pos]
  · intro env hb hm hns
    simp [performFullSync, fetchManifest, hb, hm, hns]

/-- A concrete layer record. -/
def exL1 : StoredLayer :=
  { id := "a", version := "v1", name := "Alpha", geojson := ⟨1⟩
    sha256 := some "ha", storedAt := "t0", visible := true }

/-- A second concrete layer record. -/
def exL2 : StoredLayer :=
  { id := "b", version := "v1", name := "Beta", geojson := ⟨2⟩
    sha256 := some "hb", storedAt := "t0", visible := false }

/-- A concrete two-layer database. -/
def exDb9 : DB := { manifest := none, layers := [exL1, exL2], basemaps := [], settings := none }

/-- C9 witness: on a concrete two-layer store, toggling an unknown id is a
no-op and toggling layer `a` rewrites only that record. -/
theorem updateLayerVisibility_spec_witness :
    updateLayerVisibility exDb9 "missing" true = exDb9 ∧
    updateLayerVisibility exDb9 "a" false =
      { exDb9 with layers :=
          exDb9.layers.map (fun x => if x.id = "a" then { x with visible := false } else x) } :=
  ⟨(updateLayerVisibility_spec exDb9 "missing" true).1 (by decide),
   (updateLayerVisibility_spec exDb9 "a" false).2 (by decide) exL1 (by decide)⟩

/-- A manifest layer config sharing id and hash with a stored layer. -/
def exLayerCfg : LayerConfig :=
  { id := "a", type := LayerType.kml, name := "Alpha", url := "/a.kml"
    sha256 := some "abc", defaultVisible := true }

/-- A stored layer with hash `abc`. -/
def exStoredL : StoredLayer :=
  { id := "a", version := "t0", name := "Alpha", geojson := ⟨0⟩
    sha256 := some "abc", storedAt := "t0", visible := true }

/-- A new manifest whose version changed but whose only layer kept hash
`abc`. -/
def exManifest2 : ContentManifest :=
  { version := "v2"
    basemap := { id := "base", url := "/b.pmtiles", sha256 := none }
    layers := [exLayerCfg] }

/-- The previously stored manifest (version `v1`). -/
def exSM2 : StoredManifest :=
  { id := "current", version := "v1", fetchedAt := "t0", rawJson := exManifest2 }

/-- Database holding the stored manifest and the hash-`abc` layer. -/
def exDb2 : DB :=
  { manifest := some exSM2, layers := [exStoredL], basemaps := [], settings := none }

/-- C2 witness: the layer whose declared hash equals the stored hash is
excluded from `changedLayers` although the manifest version changed. -/
theorem checkSyncNeeded_diff_spec_witness :
    exLayerCfg ∉ (checkSyncNeeded exDb2 exManifest2).changedLayers :=
  ((checkSyncNeeded_diff_spec exDb2 exManifest2).2 (by decide)).2.2.1
    exLayerCfg exStoredL (by decide) (by decide)

/-- A manifest with unchanged version and layer but a new basemap hash. -/
def exManifest10 : ContentManifest :=
  { version := "v1"
    basemap := { id := "base", url := "/b.pmtiles", sha256 := some "bh2" }
    layers := [exLayerCfg] }

/-- The stored manifest matching `exManifest10`. -/
def exSM10 : StoredManifest :=
  { id := "current", version := "v1", fetchedAt := "t0", rawJson := exManifest10 }

/-- A stored basemap with the old hash `bh1`. -/
def exSB10 : StoredBasemap :=
  { id := "base", version := "t0", blob := [], sha256 := some "bh1"
    sizeBytes := 0, storedAt := "t0" }

/-- Database for the C10 witness: manifest and layer up to date, basemap
hash stale. -/
def exDb10 : DB :=
  { manifest := some exSM10, layers := [exStoredL], basemaps := [exSB10], settings := none }

/-- Environment for the C10 witness. -/
def exEnv10 : Env :=
  { baseUrl := "https://content"
    manifestResponse := some exManifest10
    kmlResponse := fun _ => none
    now := "t1" }

/-- C10 witness: the basemap hash changed (`basemapChanged = true`) yet
`performFullSync` skips the sync, reporting success with zero layers. -/
theorem needsSync_version_or_layers_witness :
    (checkSyncNeeded exDb10 exManifest10).basemapChanged = true ∧
    performFullSync exEnv10 exDb10 =
      ({ success := true, layersSynced := 0, error := none }, exDb10,
       [Ev.message "Fetching manifest...", Ev.fetchManifestReq,
        Ev.message "Already up to date"]) :=
  ⟨by decide,
   (needsSync_version_or_layers exDb10 exManifest10 exSM10 (by decide)).2
     exEnv10 (by decide) rfl (by decide)⟩

/-! ## C3: syncLayers — partial-failure isolation and exact progress -/

/-- The `(completed, total)` pairs reported to the `syncLayers` progress
callback, extracted from an event trace in order. -/
def progressReports (t : List Ev) : List (Nat × Nat) :=
  t.filterMap (fun e =>
    match e with
    | Ev.layerProgress c tot => some (c, tot)
    | _ => none)

/-- The outcome of `syncLayer` for one config, as a function of the
environment alone: `none` when the fetch/decode throws, otherwise the
stored record that gets persisted. -/
def syncedLayerOf (env : Env) (layer : LayerConfig) : Option StoredLayer :=
  (env.kmlResponse (resolveUrl env.baseUrl layer.url)).map (mkStoredLayer env layer)

theorem progressReports_append (a b : List Ev) :
    progressReports (a ++ b) = progressReports a ++ progressReports b :=
  List.filterMap_append a b _

theorem syncLayersGo_results (env : Env) (total : Nat) :
    ∀ (ls : List LayerConfig) (db : DB) (i : Nat),
      (syncLayersGo env total db i ls).1 = ls.filterMap (syncedLayerOf env) := by
  intro ls
  induction ls with
  | nil => intro db i; rfl
  | cons l rest ih =>
      intro db i
      cases hk : env.kmlResponse (resolveUrl env.baseUrl l.url) with
      | none => simp [syncLayersGo, syncLayer, hk, List.filterMap_cons, syncedLayerOf, ih]
      | some g => simp [syncLayersGo, syncLayer, hk, List.filterMap_cons, syncedLayerOf, ih]

theorem syncLayersGo_progress (env : Env) (total : Nat) :
    ∀ (ls : List LayerConfig) (db : DB) (i : Nat),
      progressReports (syncLayersGo env total db i ls).2.2 =
        (List.range ls.length).map (fun k => (i + 1 + k, total)) := by
  intro ls
  induction ls with
  | nil => intro db i; rfl
  | cons l rest ih =>
      intro db i
      have harith : ∀ k, i + 1 + 1 + k = i + 1 + (k + 1) := by omega
      cases hk : env.kmlResponse (resolveUrl env.baseUrl l.url) with
      | none =>
          simp only [syncLayersGo, syncLayer, hk]
          rw [progressReports_append, progressReports_append, ih]
          simp [progressReports, List.range_succ_eq_map, List.map_map, harith]
      | some g =>
          simp only [syncLayersGo, syncLayer, hk]
          rw [progressReports_append, progressReports_append, ih]
          simp [progressReports, List.range_succ_eq_map, List.map_map, harith]

/-- C3: `syncLayers` is total (a per-layer fetch/decode failure is caught
and the layer skipped, never aborting the siblings — the embedding of the
loop is a total function), processes the configs sequentially, returns
exactly the successfully synced layers in order, and fires the progress
callback exactly `n` times with completed values `1..n` and `total = n`. -/
theorem syncLayers_spec (env : Env) (db : DB) (layers : List LayerConfig) :
    (syncLayers env db layers).1 = layers.filterMap (syncedLayerOf env) ∧
    progressReports (syncLayers env db layers).2.2 =
      (List.range layers.length).map (fun i => (i + 1, layers.length)) := by
  refine ⟨syncLayersGo_results env layers.length layers db 0, ?_⟩
  rw [syncLayers, syncLayersGo_progress]
  exact List.map_congr_left (fun k _ => by simp [Nat.add_comm])

/-! ## C4: performFullSync guard paths resolve to result values -/

/-- C4: `performFullSync` is embedded as a total function — every path
resolves to a result value.  With no content server configured it returns
success with zero layers synced and its trace contains no network event;
when the manifest fetch fails it returns success/zero if a manifest was
stored and failure with the explanatory error string otherwise, leaving the
database untouched in all three cases. -/
theorem performFullSync_guard_paths (env : Env) (db : DB) :
    (env.baseUrl = "" →
      performFullSync env db =
        ({ success := true, layersSynced := 0, error := none }, db,
         [Ev.message "No content server configured"])) ∧
    (env.baseUrl ≠ "" → env.manifestResponse = none →
      ((getStoredManifest db ≠ none →
        performFullSync env db =
          ({ success := true, layersSynced := 0, error := none }, db,
           [Ev.message "Fetching manifest...", Ev.fetchManifestReq])) ∧
       (getStoredManifest db = none →
        performFullSync env db =
          ({ success := false, layersSynced := 0,
             error := some "Content server unavailable" }, db,
           [Ev.message "Fetching manifest...", Ev.fetchManifestReq])))) := by
  refine ⟨?_, ?_⟩
  · intro h
    simp [performFullSync, h]
  · intro hb hm
    refine ⟨?_, ?_⟩
    · intro hst
      obtain ⟨sm, hsm⟩ := Option.ne_none_iff_exists.mp hst
      simp [performFullSync, fetchManifest, hb, hm, ← hsm]
    · intro hst
      simp [performFullSync, fetchManifest, hb, hm, hst]

/-- An environment with no content server configured. -/
def exEnvNoServer : Env :=
  { baseUrl := "", manifestResponse := none, kmlResponse := fun _ => none, now := "t" }

/-- C4 witness: with an empty base URL the sync returns success/zero at once
with no network event in the trace. -/
theorem performFullSync_guard_paths_witness :
    performFullSync exEnvNoServer exDb9 =
      ({ success := true, layersSynced := 0, error := none }, exDb9,
       [Ev.message "No content server configured"]) :=
  (performFullSync_guard_paths exEnvNoServer exDb9).1 rfl

/-! ## C5: the manifest is committed only after all layer work -/

/-- Events belonging to the layer-sync phase: layer fetches, layer store
writes, and per-layer progress reports. -/
def layerEv : Ev → Bool
  | Ev.fetchLayer _ => true
  | Ev.putLayer _ => true
  | Ev.layerProgress _ _ => true
  | _ => false

/-- Manifest-commit events. -/
def commitEv : Ev → Bool
  | Ev.putManifest _ => true
  | _ => false

theorem syncLayersGo_no_commit (env : Env) (total : Nat) :
    ∀ (ls : List LayerConfig) (db : DB) (i : Nat),
      ∀ e ∈ (syncLayersGo env total db i ls).2.2, commitEv e = false := by
  intro ls
  induction ls with
  | nil => intro db i e he; simp [syncLayersGo] at he
  | cons l rest ih =>
      intro db i e he
      cases hk : env.kmlResponse (resolveUrl env.baseUrl l.url) with
      | none =>
          simp only [syncLayersGo, syncLayer, hk] at he
          simp only [List.append_assoc, List.mem_append, List.mem_singleton] at he
          rcases he with h | h | h
          · subst h; rfl
          · subst h; rfl
          · exact ih db (i + 1) e h
      | some g =>
          simp only [syncLayersGo, syncLayer, hk] at he
          simp only [List.append_assoc, List.mem_append, List.mem_cons,
            List.mem_singleton, List.not_mem_nil, or_false] at he
          rcases he with (h | h) | h | h
          · subst h; rfl
          · subst h; rfl
          · subst h; rfl
          · exact ih (saveLayer db (mkStoredLayer env l g)) (i + 1) e h

theorem performFullSync_trace_split (env : Env) (db : DB) :
    ∃ a b, (performFullSync env db).2.2 = a ++ b ∧
      (∀ e ∈ a, commitEv e = false) ∧ (∀ e ∈ b, layerEv e = false) := by
  by_cases hb : env.baseUrl = ""
  · refine ⟨[Ev.message "No content server configured"], [], ?_, ?_, ?_⟩
    · simp [performFullSync, hb]
    · intro e he; rw [List.mem_singleton] at he; subst he; rfl
    · intro e he; simp at he
  · cases hm : env.manifestResponse with
    | none =>
        cases hst : db.manifest with
        | some sm =>
            refine ⟨[Ev.message "Fetching manifest...", Ev.fetchManifestReq], [], ?_, ?_, ?_⟩
            · simp [performFullSync, fetchManifest, hb, hm, getStoredManifest, hst]
            · intro e he
              rcases List.mem_cons.mp he with h | h
              · subst h; rfl
              · rw [List.mem_singleton] at h; subst h; rfl
            · intro e he; simp at he
        | none =>
            refine ⟨[Ev.message "Fetching manifest...", Ev.fetchManifestReq], [], ?_, ?_, ?_⟩
            · simp [performFullSync, fetchManifest, hb, hm, getStoredManifest, hst]
            · intro e he
              rcases List.mem_cons.mp he with h | h
              · subst h; rfl
              · rw [List.mem_singleton] at h; subst h; rfl
            · intro e he; simp at he
    | some manifest =>
        by_cases hns : (checkSyncNeeded db manifest).needsSync = false
        · refine ⟨[Ev.message "Fetching manifest...", Ev.fetchManifestReq,
                   Ev.message "Already up to date"], [], ?_, ?_, ?_⟩
          · simp [performFullSync, fetchManifest, hb, hm, hns]
          · intro e he
            rcases List.mem_cons.mp he with h | h
            · subst h; rfl
            rcases List.mem_cons.mp h with h2 | h2
            · subst h2; rfl
            · rw [List.mem_singleton] at h2; subst h2; rfl
          · intro e he; simp at he
        · have hns2 : (checkSyncNeeded db manifest).needsSync = true := by
            cases h2 : (checkSyncNeeded db manifest).needsSync
            · exact absurd h2 hns
            · rfl
          refine ⟨Ev.message "Fetching manifest..." :: Ev.fetchManifestReq ::
                    Ev.message ("Syncing " ++
                      toString (checkSyncNeeded db manifest).changedLayers.length ++ " layers...") ::
                    (syncLayers env db (checkSyncNeeded db manifest).changedLayers).2.2,
                  [Ev.putManifest
                    { id := "current", version := manifest.version,
                      fetchedAt := env.now, rawJson := manifest },
                   Ev.message "Sync complete"], ?_, ?_, ?_⟩
          · simp [performFullSync, fetchManifest, hb, hm, hns2]
          · intro e he
            rcases List.mem_cons.mp he with h | h
            · subst h; rfl
            rcases List.mem_cons.mp h with h2 | h2
            · subst h2; rfl
            rcases List.mem_cons.mp h2 with h3 | h3
            · subst h3; rfl
            · exact syncLayersGo_no_commit env _ _ db 0 e h3
          · intro e he
            rcases List.mem_cons.mp he with h | h
            · subst h; rfl
            · rw [List.mem_singleton] at h; subst h; rfl

/-- C5: in every run of `performFullSync` the event trace splits into a
prefix free of manifest commits followed by a suffix free of layer-sync
events — the new manifest is persisted strictly after the sync of every
changed layer has been attempted (after `syncLayers` has returned); and on
every path whose trace commits no manifest (unconfigured server, fetch
failure, nothing to sync) the previously stored manifest is unchanged. -/
theorem performFullSync_manifest_last (env : Env) (db : DB) :
    (∃ k, (∀ e ∈ ((performFullSync env db).2.2).take k, commitEv e = false) ∧
          (∀ e ∈ ((performFullSync env db).2.2).drop k, layerEv e = false)) ∧
    ((∀ e ∈ (performFullSync env db).2.2, commitEv e = false) →
      ((performFullSync env db).2.1).manifest = db.manifest) := by
  constructor
  · obtain ⟨a, b, heq, ha, hcommit⟩ := performFullSync_trace_split env db
    refine ⟨a.length, ?_, ?_⟩
    · intro e he
      rw [heq, List.take_left] at he
      exact ha e he
    · intro e he
      rw [heq, List.drop_left] at he
      exact hcommit e he
  · intro hno
    by_cases hb : env.baseUrl = ""
    · simp [performFullSync, hb]
    · cases hm : env.manifestResponse with
      | none =>
          cases hst : db.manifest with
          | some sm => simp [performFullSync, fetchManifest, hb, hm, getStoredManifest, hst]
          | none => simp [performFullSync, fetchManifest, hb, hm, getStoredManifest, hst]
      | some manifest =>
          by_cases hns : (checkSyncNeeded db manifest).needsSync = false
          · simp [performFullSync, fetchManifest, hb, hm, hns]
          · have hns2 : (checkSyncNeeded db manifest).needsSync = true := by
              cases h2 : (checkSyncNeeded db manifest).needsSync
              · exact absurd h2 hns
              · rfl
            exfalso
            have htr : (performFullSync env db).2.2 =
                Ev.message "Fetching manifest..." :: Ev.fetchManifestReq ::
                  Ev.message ("Syncing " ++
                    toString (checkSyncNeeded db manifest).changedLayers.length ++ " layers...") ::
                  ((syncLayers env db (checkSyncNeeded db manifest).changedLayers).2.2 ++
                    [Ev.putManifest
                      { id := "current", version := manifest.version,
                        fetchedAt := env.now, rawJson := manifest },
                     Ev.message "Sync complete"]) := by
              simp [performFullSync, fetchManifest, hb, hm, hns2]
            have hmem : Ev.putManifest
                { id := "current", version := manifest.version,
                  fetchedAt := env.now, rawJson := manifest } ∈
                (performFullSync env db).2.2 := by
              rw [htr]
              simp
            have := hno _ hmem
            simp [commitEv] at this

/-- C5 witness: a run whose trace commits no manifest (no content server)
leaves the stored manifest unchanged. -/
theorem performFullSync_manifest_last_witness :
    ((performFullSync exEnvNoServer exDb2).2.1).manifest = exDb2.manifest :=
  (performFullSync_manifest_last exEnvNoServer exDb2).2 (by decide)

/-! ## C8: basemap download progress -/

/-- The fetching-phase reports of a `downloadBasemap` event trace, in
order. -/
def fetchingReports (evs : List DlEv) : List DownloadProgress :=
  evs.filterMap (fun e =>
    match e with
    | DlEv.progress p => if p.phase = DlPhase.fetching then some p else none
    | _ => none)

theorem fetchingReports_append (a b : List DlEv) :
    fetchingReports (a ++ b) = fetchingReports a ++ fetchingReports b :=
  List.filterMap_append a b _

theorem jsRound100_eq_floor (l t : Nat) (ht : 0 < t) :
    (jsRound100 l t : ℤ) = ⌊((l : ℚ) / t) * 100 + 1 / 2⌋ := by
  have htq : (t : ℚ) ≠ 0 := Nat.cast_ne_zero.mpr (Nat.pos_iff_ne_zero.mp ht)
  have h1 : ((l : ℚ) / t) * 100 + 1 / 2 = ((200 * l + t : ℕ) : ℚ) / ((2 * t : ℕ) : ℚ) := by
    push_cast
    field_simp
    ring
  rw [jsRound100, if_pos ht, h1]
  have hnn : (0 : ℚ) ≤ ((200 * l + t : ℕ) : ℚ) / ((2 * t : ℕ) : ℚ) := by positivity
  rw [← Int.natCast_floor_eq_floor hnn, Nat.floor_div_eq_div]

theorem chunkReports_fields (total : Nat) :
    ∀ (cs : List (List Nat)) (loaded : Nat), ∀ p ∈ chunkReports total loaded cs,
      p.phase = DlPhase.fetching ∧ p.total = total ∧
        p.percentage = jsRound100 p.loaded p.total := by
  intro cs
  induction cs with
  | nil => intro loaded p hp; simp [chunkReports] at hp
  | cons c cs ih =>
      intro loaded p hp
      simp only [chunkReports] at hp
      rcases List.mem_cons.mp hp with h | h
      · subst h; exact ⟨rfl, rfl, rfl⟩
      · exact ih _ p h

theorem chunkReports_mono (total : Nat) :
    ∀ (cs : List (List Nat)) (loaded : Nat),
      (∀ p ∈ chunkReports total loaded cs, loaded ≤ p.loaded) ∧
      List.Chain' (fun p q => p.loaded ≤ q.loaded) (chunkReports total loaded cs) := by
  intro cs
  induction cs with
  | nil =>
      intro loaded
      exact ⟨fun p hp => by simp [chunkReports] at hp, List.chain'_nil⟩
  | cons c cs ih =>
      intro loaded
      constructor
      · intro p hp
        simp only [chunkReports] at hp
        rcases List.mem_cons.mp hp with h | h
        · subst h; exact Nat.le_add_right _ _
        · exact le_trans (Nat.le_add_right _ _) ((ih (loaded + c.length)).1 p h)
      · simp only [chunkReports]
        rw [List.chain'_cons']
        refine ⟨?_, (ih (loaded + c.length)).2⟩
        intro q hq
        exact (ih (loaded + c.length)).1 q (List.mem_of_mem_head? hq)

theorem getLast?_cons_of_ne_nil {α : Type} (a : α) (l : List α) (h : l ≠ []) :
    (a :: l).getLast? = l.getLast? := by
  cases l with
  | nil => exact absurd rfl h
  | cons b bs => rw [List.getLast?_cons_cons]

theorem chunkReports_last (total : Nat) :
    ∀ (cs : List (List Nat)) (loaded : Nat), cs ≠ [] →
      ∃ p, (chunkReports total loaded cs).getLast? = some p ∧
        p.loaded = loaded + (cs.map List.length).sum ∧ p.total = total := by
  intro cs
  induction cs with
  | nil => intro loaded h; exact absurd rfl h
  | cons c cs ih =>
      intro loaded _
      cases cs with
      | nil =>
          exact ⟨{ phase := DlPhase.fetching, loaded := loaded + c.length, total := total
                   percentage := jsRound100 (loaded + c.length) total },
                 by simp [chunkReports], by simp, rfl⟩
      | cons c2 cs2 =>
          obtain ⟨p, hp, hl, ht⟩ := ih (loaded + c.length) (by simp)
          have hne : chunkReports total (loaded + c.length) (c2 :: cs2) ≠ [] := by
            simp [chunkReports]
          have hstep : chunkReports total loaded (c :: c2 :: cs2) =
              { phase := DlPhase.fetching, loaded := loaded + c.length, total := total
                percentage := jsRound100 (loaded + c.length) total } ::
                chunkReports total (loaded + c.length) (c2 :: cs2) := rfl
          refine ⟨p, ?_, ?_, ht⟩
          · rw [hstep, getLast?_cons_of_ne_nil _ _ hne]
            exact hp
          · rw [hl]
            simp only [List.map_cons, List.sum_cons]
            omega

theorem fetchingReports_map_progress (rs : List DownloadProgress)
    (h : ∀ p ∈ rs, p.phase = DlPhase.fetching) :
    fetchingReports (rs.map DlEv.progress) = rs := by
  induction rs with
  | nil => rfl
  | cons r rs ih =>
      have hr : r.phase = DlPhase.fetching := h r (List.mem_cons_self r rs)
      have hcons : fetchingReports (DlEv.progress r :: rs.map DlEv.progress) =
          r :: fetchingReports (rs.map DlEv.progress) := by
        simp [fetchingReports, List.filterMap_cons, hr]
      simp only [List.map_cons]
      rw [hcons, ih (fun p hp => h p (List.mem_cons_of_mem r hp))]

/-- The initial fetching-phase report of `downloadBasemap`. -/
def initReport : DownloadProgress :=
  { phase := DlPhase.fetching, loaded := 0, total := 0, percentage := 0 }

theorem downloadBasemap_events (env : Env) (resp : BasemapResponse) (db : DB)
    (id : String) (sha : Option String) (hok : resp.ok = true) :
    (downloadBasemap env resp db id sha).2 =
      DlEv.progress initReport ::
        ((chunkReports (resp.contentLength.getD 0) 0 resp.chunks).map DlEv.progress ++
          [DlEv.progress { phase := DlPhase.storing, loaded := (resp.chunks.map List.length).sum
                           total := (resp.chunks.map List.length).sum, percentage := 100 },
           DlEv.putBasemap { id := id, version := env.now, blob := resp.chunks.flatten
                             sha256 := sha, sizeBytes := resp.chunks.flatten.length
                             storedAt := env.now },
           DlEv.putSettings id,
           DlEv.progress { phase := DlPhase.complete, loaded := (resp.chunks.map List.length).sum
                           total := (resp.chunks.map List.length).sum, percentage := 100 }]) := by
  simp [downloadBasemap, hok, initReport]

theorem downloadBasemap_fetchingReports (env : Env) (resp : BasemapResponse) (db : DB)
    (id : String) (sha : Option String) (hok : resp.ok = true) :
    fetchingReports (downloadBasemap env resp db id sha).2 =
      initReport :: chunkReports (resp.contentLength.getD 0) 0 resp.chunks := by
  rw [downloadBasemap_events env resp db id sha hok]
  have h0 : ∀ (x : DlEv) (t : List DlEv), x :: t = [x] ++ t := fun x t => rfl
  rw [h0, fetchingReports_append, fetchingReports_append]
  rw [fetchingReports_map_progress _
    (fun p hp => (chunkReports_fields _ _ _ p hp).1)]
  simp [fetchingReports, List.filterMap_cons, initReport]

/-- C8: in every successful `downloadBasemap` run the `loaded` values of the
fetching-phase reports are non-decreasing (accumulating chunk lengths); each
fetching report carries `percentage = round(loaded / total * 100)` — equal
to `0` whenever it carries `total = 0` — where `round` is the JS
half-up rounding `⌊x + 1/2⌋`; if the content length equals the delivered
byte count `N`, the final fetching report carries `loaded = total = N`; and
the trace is exactly the fetching reports followed by a storing report, the
basemap persist of the blob assembled from all chunks, the settings write,
and a complete report at percentage 100 — the blob is persisted only after
the stream has completed. -/
theorem downloadBasemap_spec (env : Env) (resp : BasemapResponse) (db : DB)
    (id : String) (sha : Option String) (hok : resp.ok = true) :
    List.Chain' (fun p q => p.loaded ≤ q.loaded)
      (fetchingReports (downloadBasemap env resp db id sha).2) ∧
    (∀ p ∈ fetchingReports (downloadBasemap env resp db id sha).2,
      p.percentage = jsRound100 p.loaded p.total) ∧
    (∀ p ∈ fetchingReports (downloadBasemap env resp db id sha).2,
      0 < p.total → (p.percentage : ℤ) = ⌊((p.loaded : ℚ) / p.total) * 100 + 1 / 2⌋) ∧
    (∀ p ∈ fetchingReports (downloadBasemap env resp db id sha).2,
      p.total = 0 → p.percentage = 0) ∧
    (resp.contentLength = some ((resp.chunks.map List.length).sum) →
      ∃ p, (fetchingReports (downloadBasemap env resp db id sha).2).getLast? = some p ∧
        p.loaded = (resp.chunks.map List.length).sum ∧ p.total = p.loaded) ∧
    (∃ st : StoredBasemap, st.blob = resp.chunks.flatten ∧
      st.sizeBytes = resp.chunks.flatten.length ∧
      (downloadBasemap env resp db id sha).1 =
        some (saveSettingsBasemap (saveBasemap db st) id) ∧
      (downloadBasemap env resp db id sha).2 =
        (fetchingReports (downloadBasemap env resp db id sha).2).map DlEv.progress ++
          [DlEv.progress { phase := DlPhase.storing, loaded := (resp.chunks.map List.length).sum
                           total := (resp.chunks.map List.length).sum, percentage := 100 },
           DlEv.putBasemap st, DlEv.putSettings id,
           DlEv.progress { phase := DlPhase.complete, loaded := (resp.chunks.map List.length).sum
                           total := (resp.chunks.map List.length).sum, percentage := 100 }]) := by
  have hfr := downloadBasemap_fetchingReports env resp db id sha hok
  have hperc : ∀ p ∈ fetchingReports (downloadBasemap env resp db id sha).2,
      p.percentage = jsRound100 p.loaded p.total := by
    intro p hp
    rw [hfr] at hp
    rcases List.mem_cons.mp hp with h | h
    · subst h; rfl
    · exact ((chunkReports_fields _ _ _ p h).2).2
  refine ⟨?_, hperc, ?_, ?_, ?_, ?_⟩
  · rw [hfr, List.chain'_cons']
    refine ⟨fun q _ => Nat.zero_le _, (chunkReports_mono _ _ _).2⟩
  · intro p hp ht
    rw [hperc p hp]
    exact jsRound100_eq_floor p.loaded p.total ht
  · intro p hp ht
    rw [hperc p hp, ht, jsRound100]
    simp
  · intro hcl
    rw [hfr]
    cases hc : resp.chunks with
    | nil =>
        exact ⟨initReport, by simp [chunkReports], by simp [initReport], rfl⟩
    | cons c cs =>
        obtain ⟨p, hp, hl, ht⟩ := chunkReports_last (resp.contentLength.getD 0)
          (c :: cs) 0 (by simp)
        have hne : chunkReports (resp.contentLength.getD 0) 0 (c :: cs) ≠ [] := by
          simp [chunkReports]
        refine ⟨p, ?_, ?_, ?_⟩
        · rw [getLast?_cons_of_ne_nil _ _ hne]
          exact hp
        · rw [hl, Nat.zero_add]
        · rw [ht, hcl]
          simp only [Option.getD_some]
          rw [hl, Nat.zero_add, hc]
  · refine ⟨{ id := id, version := env.now, blob := resp.chunks.flatten
              sha256 := sha, sizeBytes := resp.chunks.flatten.length
              storedAt := env.now }, rfl, rfl, ?_, ?_⟩
    · simp [downloadBasemap, hok]
    · rw [hfr, downloadBasemap_events env resp db id sha hok]
      simp

/-- A concrete three-chunk response with a matching content length. -/
def exResp : BasemapResponse :=
  { ok := true, contentLength := some 5, chunks := [[1, 2], [3], [4, 5]] }

/-- C8 witness: on a concrete 5-byte response the final fetching report
carries `loaded = total = 5`. -/
theorem downloadBasemap_spec_witness :
    ∃ p, (fetchingReports (downloadBasemap exEnv10 exResp exDb9 "base" none).2).getLast? =
        some p ∧
      p.loaded = (exResp.chunks.map List.length).sum ∧ p.total = p.loaded :=
  (downloadBasemap_spec exEnv10 exResp exDb9 "base" none rfl).2.2.2.2.1 rfl

/-! ## C1: layersSynced counts attempts, not successes -/

/-- Manifest for the C1 counterexample: two new layers. -/
def cexManifest : ContentManifest :=
  { version := "v1"
    basemap := { id := "base", url := "/base.pmtiles", sha256 := none }
    layers :=
      [{ id := "l1", type := LayerType.kml, name := "Layer 1", url := "/l1.kml"
         sha256 := some "h1", defaultVisible := true },
       { id := "l2", type := LayerType.kml, name := "Layer 2", url := "/l2.kml"
         sha256 := some "h2", defaultVisible := false }] }

/-- Environment in which layer 1 fetches and decodes fine while fetching
layer 2 always fails. -/
def cexEnv : Env :=
  { baseUrl := "https://content"
    manifestResponse := some cexManifest
    kmlResponse := fun url => if url = "https://content/l1.kml" then some ⟨1⟩ else none
    now := "t1" }

/-- An empty database. -/
def cexDb : DB := { manifest := none, layers := [], basemaps := [], settings := none }

/-- C1 counterexample: with one of the two changed layers failing to fetch,
`performFullSync` still reports `success = true` but `layersSynced = 2` —
the number of layers attempted — although only one layer was actually
synced: one record is persisted and `syncLayers` returned one success. -/
theorem performFullSync_layersSynced_cex :
    (performFullSync cexEnv cexDb).1 =
      { success := true, layersSynced := 2, error := none } ∧
    ((performFullSync cexEnv cexDb).2.1).layers.length = 1 ∧
    (syncLayers cexEnv cexDb (checkSyncNeeded cexDb cexManifest).changedLayers).1.length = 1 :=
  ⟨by decide, by decide, by decide⟩

/-- C1 (amended): on every run in which a sync is needed — in particular
when some changed layers fail to fetch or decode — the result has
`success = true` and `layersSynced` equal to the number of changed layers
attempted (`changedLayers.length`), not the number synced successfully; the
database receives exactly the successfully synced layers (`syncLayers`
returns and persists only the successes, skipping the failures). -/
theorem performFullSync_layersSynced_attempted (env : Env) (db : DB)
    (manifest : ContentManifest) (hb : env.baseUrl ≠ "")
    (hm : env.manifestResponse = some manifest)
    (hneed : (checkSyncNeeded db manifest).needsSync = true) :
    (performFullSync env db).1 =
      { success := true
        layersSynced := (checkSyncNeeded db manifest).changedLayers.length
        error := none } ∧
    (performFullSync env db).2.1 =
      saveManifest (syncLayers env db (checkSyncNeeded db manifest).changedLayers).2.1
        { id := "current", version := manifest.version
          fetchedAt := env.now, rawJson := manifest } ∧
    (syncLayers env db (checkSyncNeeded db manifest).changedLayers).1 =
      (checkSyncNeeded db manifest).changedLayers.filterMap (syncedLayerOf env) := by
  refine ⟨?_, ?_, syncLayersGo_results env _ _ db 0⟩
  · simp [performFullSync, fetchManifest, hb, hm, hneed]
  · simp [performFullSync, fetchManifest, hb, hm, hneed]

/-- C1 witness: the amended statement applied to the concrete partial
failure run. -/
theorem performFullSync_layersSynced_attempted_witness :
    (performFullSync cexEnv cexDb).1 =
      { success := true
        layersSynced := (checkSyncNeeded cexDb cexManifest).changedLayers.length
        error := none } :=
  (performFullSync_layersSynced_attempted cexEnv cexDb cexManifest
    (by decide) rfl (by decide)).1

/-! ## C6: idempotence of performFullSync -/

theorem layerChanged_congr (s1 s2 : List StoredLayer) (layer : LayerConfig)
    (h : s1.find? (fun y => y.id = layer.id) = s2.find? (fun y => y.id = layer.id)) :
    layerChanged s1 layer = layerChanged s2 layer := by
  unfold layerChanged
  rw [h]

theorem syncLayersGo_find_untouched (env : Env) (total : Nat) :
    ∀ (ls : List LayerConfig) (db : DB) (i : Nat) (id : String),
      (∀ l ∈ ls, l.id ≠ id) →
      ((syncLayersGo env total db i ls).2.1).layers.find? (fun y => y.id = id) =
        db.layers.find? (fun y => y.id = id) := by
  intro ls
  induction ls with
  | nil => intro db i id _; rfl
  | cons l rest ih =>
      intro db i id h
      have hl : l.id ≠ id := h l (List.mem_cons_self l rest)
      have hrest : ∀ x ∈ rest, x.id ≠ id := fun x hx => h x (List.mem_cons_of_mem l hx)
      cases hk : env.kmlResponse (resolveUrl env.baseUrl l.url) with
      | none =>
          simp only [syncLayersGo, syncLayer, hk]
          exact ih db (i + 1) id hrest
      | some g =>
          simp only [syncLayersGo, syncLayer, hk]
          rw [ih _ (i + 1) id hrest]
          exact putByKey_find?_other (fun x => x.id) (mkStoredLayer env l g) db.layers id
            (Ne.symm hl)

theorem syncLayersGo_find_synced (env : Env) (total : Nat) :
    ∀ (ls : List LayerConfig) (db : DB) (i : Nat),
      (ls.map (fun l => l.id)).Nodup →
      (∀ l ∈ ls, (env.kmlResponse (resolveUrl env.baseUrl l.url)).isSome) →
      ∀ layer ∈ ls, ∃ g, env.kmlResponse (resolveUrl env.baseUrl layer.url) = some g ∧
        ((syncLayersGo env total db i ls).2.1).layers.find? (fun y => y.id = layer.id) =
          some (mkStoredLayer env layer g) := by
  intro ls
  induction ls with
  | nil => intro db i _ _ layer h; simp at h
  | cons l rest ih =>
      intro db i hnd hfetch layer hmem
      have hnd1 : l.id ∉ rest.map (fun x => x.id) ∧ (rest.map (fun x => x.id)).Nodup := by
        rw [List.map_cons, List.nodup_cons] at hnd
        exact hnd
      rcases List.mem_cons.mp hmem with h | h
      · subst h
        obtain ⟨g, hg⟩ := Option.isSome_iff_exists.mp
          (hfetch layer (List.mem_cons_self layer rest))
        refine ⟨g, hg, ?_⟩
        have hrest : ∀ x ∈ rest, x.id ≠ layer.id := fun x hx hcontra =>
          hnd1.1 (hcontra ▸ List.mem_map_of_mem (fun z => z.id) hx)
        simp only [syncLayersGo, syncLayer, hg]
        rw [syncLayersGo_find_untouched env total rest _ (i + 1) layer.id hrest]
        exact putByKey_find?_self (fun x => x.id) (mkStoredLayer env layer g) db.layers
      · cases hk : env.kmlResponse (resolveUrl env.baseUrl l.url) with
        | none =>
            have := hfetch l (List.mem_cons_self l rest)
            rw [hk] at this
            simp at this
        | some g0 =>
            simp only [syncLayersGo, syncLayer, hk]
            exact ih (saveLayer db (mkStoredLayer env l g0)) (i + 1) hnd1.2
              (fun x hx => hfetch x (List.mem_cons_of_mem l hx)) layer h

/-- C6: running `performFullSync` twice against the same server manifest is
idempotent.  Hypotheses: both runs see a configured server and the same
manifest, the manifest layer ids are unique (a manifest invariant), and the
first run fetches every manifest layer successfully.  Then the second run
reports success with `layersSynced = 0` and leaves the whole database —
in particular every stored layer — byte-for-byte unchanged. -/
theorem performFullSync_idempotent (env env2 : Env) (db : DB)
    (manifest : ContentManifest)
    (hb : env.baseUrl ≠ "") (hm : env.manifestResponse = some manifest)
    (hb2 : env2.baseUrl ≠ "") (hm2 : env2.manifestResponse = some manifest)
    (hmn : (manifest.layers.map (fun l => l.id)).Nodup)
    (hfetch : ∀ l ∈ manifest.layers,
      (env.kmlResponse (resolveUrl env.baseUrl l.url)).isSome) :
    (performFullSync env2 (performFullSync env db).2.1).1 =
      { success := true, layersSynced := 0, error := none } ∧
    (performFullSync env2 (performFullSync env db).2.1).2.1 =
      (performFullSync env db).2.1 := by
  by_cases hns : (checkSyncNeeded db manifest).needsSync = false
  · have hdb1 : (performFullSync env db).2.1 = db := by
      simp [performFullSync, fetchManifest, hb, hm, hns]
    rw [hdb1]
    constructor
    · simp [performFullSync, fetchManifest, hb2, hm2, hns]
    · simp [performFullSync, fetchManifest, hb2, hm2, hns]
  · have hns2 : (checkSyncNeeded db manifest).needsSync = true := by
      cases h2 : (checkSyncNeeded db manifest).needsSync
      · exact absurd h2 hns
      · rfl
    set db1 := (performFullSync env db).2.1 with hdb1def
    have hdb1 : db1 =
        saveManifest (syncLayers env db (checkSyncNeeded db manifest).changedLayers).2.1
          { id := "current", version := manifest.version
            fetchedAt := env.now, rawJson := manifest } := by
      rw [hdb1def]
      simp [performFullSync, fetchManifest, hb, hm, hns2]
    have hCprop : ((checkSyncNeeded db manifest).changedLayers).Sublist manifest.layers ∧
        (∀ layer ∈ manifest.layers,
          layer ∈ (checkSyncNeeded db manifest).changedLayers ∨
            (layerChanged db.layers layer = false ∧
              layer ∉ (checkSyncNeeded db manifest).changedLayers)) := by
      cases hst : db.manifest with
      | none =>
          have hC : (checkSyncNeeded db manifest).changedLayers = manifest.layers := by
            simp [checkSyncNeeded, getStoredManifest, hst]
          rw [hC]
          exact ⟨List.Sublist.refl _, fun layer h => Or.inl h⟩
      | some sm =>
          have hC : (checkSyncNeeded db manifest).changedLayers =
              manifest.layers.filter (layerChanged db.layers) := by
            simp [checkSyncNeeded, getStoredManifest, getAllLayers, hst]
          rw [hC]
          refine ⟨List.filter_sublist _, ?_⟩
          intro layer hmem
          by_cases hch : layerChanged db.layers layer = true
          · exact Or.inl (List.mem_filter.mpr ⟨hmem, hch⟩)
          · have hch2 : layerChanged db.layers layer = false := by
              cases h2 : layerChanged db.layers layer
              · rfl
              · exact absurd h2 hch
            exact Or.inr ⟨hch2, fun hin => hch (List.of_mem_filter hin)⟩
    have hndC : (((checkSyncNeeded db manifest).changedLayers).map (fun l => l.id)).Nodup :=
      List.Nodup.sublist (List.Sublist.map (fun l => l.id) hCprop.1) hmn
    have hfC : ∀ l ∈ (checkSyncNeeded db manifest).changedLayers,
        (env.kmlResponse (resolveUrl env.baseUrl l.url)).isSome :=
      fun l hl => hfetch l (hCprop.1.subset hl)
    have hl1 : db1.layers =
        ((syncLayersGo env ((checkSyncNeeded db manifest).changedLayers).length db 0
          (checkSyncNeeded db manifest).changedLayers).2.1).layers := by
      rw [hdb1]; rfl
    have hlc : ∀ layer ∈ manifest.layers,
        layerChanged db1.layers layer = false := by
      intro layer hmem
      rcases hCprop.2 layer hmem with hin | ⟨hnochange, hnin⟩
      · obtain ⟨g, hg, hfind⟩ := syncLayersGo_find_synced env
          ((checkSyncNeeded db manifest).changedLayers).length
          ((checkSyncNeeded db manifest).changedLayers) db 0 hndC hfC layer hin
        rw [hl1]
        unfold layerChanged
        rw [hfind]
        simp [mkStoredLayer]
      · have hni : ∀ l ∈ (checkSyncNeeded db manifest).changedLayers,
            l.id ≠ layer.id := by
          intro l hl hcontra
          have hlm : l ∈ manifest.layers := hCprop.1.subset hl
          have heq : l = layer := List.inj_on_of_nodup_map hmn hlm hmem hcontra
          exact hnin (heq ▸ hl)
        rw [hl1]
        rw [layerChanged_congr _ db.layers layer
          (syncLayersGo_find_untouched env
            ((checkSyncNeeded db manifest).changedLayers).length
            ((checkSyncNeeded db manifest).changedLayers) db 0 layer.id hni)]
        exact hnochange
    have hman : db1.manifest =
        some { id := "current", version := manifest.version
               fetchedAt := env.now, rawJson := manifest } := by
      rw [hdb1]; rfl
    have hfilter : manifest.layers.filter
        (layerChanged (getAllLayers db1)) = [] := by
      rw [List.filter_eq_nil_iff]
      intro a ha
      simp only [getAllLayers]
      rw [hlc a ha]
      simp
    have hns3 : (checkSyncNeeded db1 manifest).needsSync = false := by
      simp only [checkSyncNeeded, getStoredManifest, hman]
      rw [hfilter]
      simp
    constructor
    · simp [performFullSync, fetchManifest, hb2, hm2, hns3]
    · simp [performFullSync, fetchManifest, hb2, hm2, hns3]

/-- A one-layer manifest for the idempotence witness. -/
def exManifest6 : ContentManifest :=
  { version := "v1"
    basemap := { id := "base", url := "/b.pmtiles", sha256 := none }
    layers :=
      [{ id := "l1", type := LayerType.kml, name := "Layer 1", url := "/l1.kml"
         sha256 := some "h1", defaultVisible := true }] }

/-- Environment in which the single layer always fetches successfully. -/
def exEnv6 : Env :=
  { baseUrl := "https://content"
    manifestResponse := some exManifest6
    kmlResponse := fun url => if url = "https://content/l1.kml" then some ⟨7⟩ else none
    now := "t1" }

/-- C6 witness: two concrete back-to-back runs against the same manifest —
the second reports zero layers synced and changes nothing. -/
theorem performFullSync_idempotent_witness :
    (performFullSync exEnv6 (performFullSync exEnv6 cexDb).2.1).1 =
      { success := true, layersSynced := 0, error := none } ∧
    (performFullSync exEnv6 (performFullSync exEnv6 cexDb).2.1).2.1 =
      (performFullSync exEnv6 cexDb).2.1 :=
  performFullSync_idempotent exEnv6 exEnv6 cexDb exManifest6
    (by decide) rfl (by decide) rfl (by decide) (by decide)
